import Mathlib

/-!
# Verification of the datawiser caching-client repository

Shallow embedding of the repository's data model and operations.

Conventions used throughout:
* Python `float` values are modelled as rationals (`ℚ`); `None` as `Option`.
* Calendar dates are modelled by their ordinal number (`Nat`), which is
  order-isomorphic to Python `datetime.date` under `<`.
* Python dictionaries observed only through key lookup are modelled as
  association lists read through `assocLookup`.

The client library itself (package `datawiserai`: `FileCache`, the model
classes and `Client`) is not part of the source tree, only its test suite
is; those components are modelled from the specification, as marked in
their doc comments.
-/

namespace Datawiser

/-- Lookup in an association list, first binding wins (models reading a
Python mapping by key). -/
def assocLookup {α β : Type} [DecidableEq α] : List (α × β) → α → Option β
  | [], _ => none
  | (k, v) :: rest, key => if key = k then some v else assocLookup rest key

/-- Overwrite-style insert: the new binding shadows any older one, which
models rewriting a cache file wholesale (the map is only ever observed
through `assocLookup`). -/
def assocInsert {α β : Type} [DecidableEq α] (l : List (α × β)) (key : α) (v : β) :
    List (α × β) :=
  (key, v) :: l

/-- JSON values, as produced by `json.load` on the payloads the client
handles. Objects are association lists in document order. -/
inductive Json : Type where
  | null : Json
  | str (s : String) : Json
  | num (q : ℚ) : Json
  | bool (b : Bool) : Json
  | arr (xs : List Json) : Json
  | obj (fields : List (String × Json)) : Json

/-- Field access on a JSON value: `none` unless the value is an object
carrying the key. -/
def Json.getField : Json → String → Option Json
  | .obj fields, k => assocLookup fields k
  | _, _ => none

/-- Contents of one cache file as seen by the reader: either bytes that do
not decode as gzip-compressed JSON, or a decoded JSON document. -/
inductive FileData : Type where
  | invalid : FileData
  | json (j : Json) : FileData

/-- The cache directory: a map from (endpoint, ticker) paths to files.
A path that is absent models a missing file. -/
def FS : Type := List ((String × String) × FileData)

instance : DecidableEq (String × String) := instDecidableEqProd

/-- Modelled from the spec: `FileCache.put` — persists the compressed JSON
document `{data, last_update, cached_at}` at the path derived from
(endpoint, key), overwriting wholesale. -/
def fcPut (fs : FS) (endpoint key : String) (data : Json)
    (lastUpdate cachedAt : String) : FS :=
  assocInsert fs (endpoint, key)
    (.json (.obj [("data", data), ("last_update", .str lastUpdate),
                  ("cached_at", .str cachedAt)]))

/-- Modelled from the spec: `FileCache.get` — returns the none-pair when
the file is absent, unreadable as valid compressed JSON, or missing the
expected `data`/`last_update` fields; otherwise the stored data and stored
timestamp. It never raises: every failure is signalled by `none`. -/
def fcGet (fs : FS) (endpoint key : String) : Option Json × Option Json :=
  match assocLookup fs (endpoint, key) with
  | some (.json j) =>
      match j.getField "data", j.getField "last_update" with
      | some d, some ts => (some d, some ts)
      | _, _ => (none, none)
  | _ => (none, none)

/-! ## Client (modelled from the spec, §4.2) -/

/-- Modelled from the spec: endpoint-alias resolution — underscores in an
endpoint name are equivalent to hyphens, so the canonical name replaces
each underscore with a hyphen. -/
def resolveEndpoint (e : String) : String :=
  String.mk (e.data.map (fun c => if c = '_' then '-' else c))

/-- One entry of the remote manifest: per-ticker freshness metadata. -/
structure ManifestEntry : Type where
  ticker : String
  security_id : String
  last_update : String
  doc_last_update : Option String

/-- The remote manifest for one endpoint, in iteration order. -/
def Manifest : Type := List (String × ManifestEntry)

/-- Modelled from the spec: the ticker-not-found error carries the
requested ticker and the resolved endpoint name. -/
structure TickerNotFoundError : Type where
  ticker : String
  endpoint : String

/-- The cache-validity decision: the cached payload is used exactly when a
cached entry exists and its stored `last_update` equals the manifest's
current `last_update` (exact string equality, not wall-clock expiry). -/
def cachedPayload (fs : FS) (ep ticker currentTs : String) : Option Json :=
  match fcGet fs ep ticker with
  | (some d, some (Json.str ts)) => if ts = currentTs then some d else none
  | _ => none

/-- Result of one client data operation: the raw payload handed to model
construction, the number of remote data fetches performed, and the cache
state afterwards. -/
structure OpResult : Type where
  payload : Json
  dataFetches : Nat
  fs : FS

/-- Modelled from the spec: the protocol shared by every per-ticker client
data operation (`free_float`, `shares_outstanding`, `reference`,
`free_float_events`, `free_float_events_detail`):
resolve the endpoint alias, fetch the manifest live, fail with
ticker-not-found when the ticker is absent; with caching enabled use the
cached payload on an exact timestamp match and otherwise fetch remotely
and write back under the manifest's timestamp; with caching disabled
always fetch and never touch the cache. `transportGet` is the Transport
collaborator; `cachedAt` the write-time stamp recorded on a put. -/
def dataOp (useCache : Bool) (transportGet : String → String → Json)
    (manifest : Manifest) (fs : FS) (endpointAlias ticker cachedAt : String) :
    Except TickerNotFoundError OpResult :=
  let ep := resolveEndpoint endpointAlias
  match assocLookup manifest ticker with
  | none => .error ⟨ticker, ep⟩
  | some entry =>
    if useCache then
      match cachedPayload fs ep ticker entry.last_update with
      | some d => .ok ⟨d, 0, fs⟩
      | none =>
        let payload := transportGet ep ticker
        .ok ⟨payload, 1, fcPut fs ep ticker payload entry.last_update cachedAt⟩
    else .ok ⟨transportGet ep ticker, 1, fs⟩

/-! ## Record models (modelled from the spec, §3) -/

/-- One free-float event record. `as_of` is the date's ordinal number. -/
structure FreeFloatEvent : Type where
  as_of : Nat
  free_float_factor : ℚ
  free_float_pct : ℚ
  shares_outstanding : ℚ
  excluded_shares : ℚ

/-- The free-float record for one security. -/
structure FreeFloat : Type where
  ticker : String
  security_id : String
  events : List FreeFloatEvent

/-- One shares-outstanding event record. -/
structure SharesOutstandingEvent : Type where
  as_of : Nat
  share_type : String
  shares : ℚ
  source : String
  sec_type : String
  last_update : Option String
  as_of_rs : Option Nat

/-- The shares-outstanding record for one security. -/
structure SharesOutstanding : Type where
  ticker : String
  security_id : String
  events : List SharesOutstandingEvent

/-- Modelled from the spec: the shared `latest()` selection — the event
with the maximum `as_of`, or none for an empty sequence, ties broken in
favour of the last-occurring tied event in input order. -/
def latestBy {α : Type} (asOf : α → Nat) : List α → Option α
  | [] => none
  | e :: rest =>
    match latestBy asOf rest with
    | none => some e
    | some b => if asOf b < asOf e then some e else some b

/-- Modelled from the spec: `FreeFloat.latest()`. -/
def FreeFloat.latest (ff : FreeFloat) : Option FreeFloatEvent :=
  latestBy FreeFloatEvent.as_of ff.events

/-- Modelled from the spec: `SharesOutstanding.latest()`. -/
def SharesOutstanding.latest (so : SharesOutstanding) : Option SharesOutstandingEvent :=
  latestBy SharesOutstandingEvent.as_of so.events

/-- One event-summary row of the free-float-events view. -/
structure FreeFloatEventSummary : Type where
  as_of : Nat
  ff_factor : ℚ
  delta_ff_factor : ℚ
  is_rebal : Bool
  shares_out : ℚ
  delta_fff_bps : Option ℚ

/-- Modelled from the spec: `FreeFloatEventSummary._from_event` over the
already-extracted event fields. The derived field is computed at
construction time: `delta_fff_bps = (delta_ff_factor / ff_factor) * 10000`
when `ff_factor ≠ 0`, and none when `ff_factor = 0`. -/
def FreeFloatEventSummary.fromEvent (asOf : Nat) (ffFactor deltaFfFactor : ℚ)
    (isRebal : Bool) (sharesOut : ℚ) : FreeFloatEventSummary :=
  ⟨asOf, ffFactor, deltaFfFactor, isRebal, sharesOut,
    if ffFactor = 0 then none else some (deltaFfFactor / ffFactor * 10000)⟩

/-! ## Smoke-test scripts (`src/alpaca_smoke_test.py`, `src/datawiser_smoke_test.py`)

Each `main` is modelled as a pure function from the credential values
found in the environment (the empty string models an unset variable) and
the outcome of the one authenticated call to the single line printed on
standard output paired with the process exit status. A doubled brace in a
Python f-string is an escaped literal brace, so a placeholder written with
doubled braces is printed verbatim — brace-wrapped name and all — instead
of being interpolated; the model mirrors this. -/

/-- Left-to-right non-overlapping replacement of `pat` by `rep` over a
character list, the semantics of Python `str.replace`; `fuel` bounds the
recursion and callers pass the text length, which suffices because every
step consumes at least one character when `pat` is nonempty. -/
def replaceChars (pat rep : List Char) : Nat → List Char → List Char
  | _, [] => []
  | 0, s => s
  | fuel + 1, c :: rest =>
    if !pat.isEmpty && pat.isPrefixOf (c :: rest) then
      rep ++ replaceChars pat rep fuel ((c :: rest).drop pat.length)
    else c :: replaceChars pat rep fuel rest

/-- Replace every occurrence of `secret` in `s` by `***`, as
`str.replace` does; the callers only invoke it with a nonempty secret. -/
def redact (secret s : String) : String :=
  String.mk (replaceChars secret.data "***".data s.data.length s.data)

/-- Python slicing to the first 200 characters. -/
def truncate200 (s : String) : String :=
  String.mk (s.data.take 200)

/-- `main` of `src/alpaca_smoke_test.py`: `callResult` is the outcome of
`TradingClient.get_account()` — `(status, currency)` on success, the
exception text on failure. Returns (stdout line, exit status). The source
builds its PASS and FAIL messages with doubled braces, so the literal
texts `{status}`, `{currency}` and `{reason}` are printed; the sanitised
`reason` is computed and then unused, exactly as in the source. -/
def alpacaSmokeMain (apiKey secretKey : String)
    (callResult : Except String (String × String)) : String × Nat :=
  if apiKey = "" ∨ secretKey = "" then
    ("FAIL alpaca_account missing credentials (ALPACA_API_KEY or ALPACA_SECRET_KEY not set)", 1)
  else
    match callResult with
    | .ok _ => ("PASS alpaca_account status={status} currency={currency}", 0)
    | .error exc =>
      let reason := truncate200 (redact secretKey (redact apiKey exc))
      let _ := reason
      ("FAIL alpaca_account {reason}", 1)

/-- `main` of `src/datawiser_smoke_test.py`: `callResult` is the outcome
of `client.universe("free-float")`, reduced to the ticker count on
success or the exception text on failure. Returns (stdout line, exit
status). -/
def datawiserSmokeMain (apiKey : String) (callResult : Except String Nat) :
    String × Nat :=
  if apiKey = "" then
    ("FAIL datawiser_smoke missing credentials (DATAWISER_API_KEY not set)", 1)
  else
    match callResult with
    | .ok count =>
      ("PASS datawiser_smoke universe=free-float tickers=" ++ toString count, 0)
    | .error exc =>
      ("FAIL datawiser_smoke " ++ truncate200 (redact apiKey exc), 1)

/-! ## Backtest driver (`src/backtest_simple.py`)

Bars are the two parallel lists the source extracts from the bars
dataframe: the bar dates (date ordinals, as elsewhere) and the close
prices, a missing close being `none`. A dataframe cell holding the trade
signal is either numeric or not convertible by `float(...)`. -/

/-- `THRESHOLD_BPS = 50.0` from the source's config constants. -/
def THRESHOLD_BPS : ℚ := 50

/-- `HOLDING_DAYS = 5` from the source's config constants. -/
def HOLDING_DAYS : Nat := 5

/-- `START_DATE = "2022-01-01"` from the source's config constants. -/
def START_DATE : String := "2022-01-01"

/-- A dataframe cell read for the trade signal: a finite numeric value,
the NaN that `pd.to_numeric(..., errors="coerce")` produces upstream for
non-numeric entries, or a value `float(...)` rejects with
`TypeError`/`ValueError`. -/
inductive Cell : Type where
  | num (q : ℚ) : Cell
  | nan : Cell
  | nonNumeric : Cell

/-- A double as observed inside `compute_trades`: a finite value
(modelled as a rational) or the IEEE NaN, which `fetch_events` manufactures
upstream via `pd.to_numeric(..., errors="coerce")` for any non-numeric
signal. -/
inductive PyFloat : Type where
  | num (q : ℚ) : PyFloat
  | nan : PyFloat
deriving DecidableEq

/-- The Python comparison `d >= 0` on a double: every IEEE comparison
with NaN is false. -/
def PyFloat.geZero : PyFloat → Bool
  | .num q => decide (0 ≤ q)
  | .nan => false

/-- The Python comparison `abs(d) <= t` on a double against a finite
threshold: `abs(nan)` is NaN, so the comparison is false. -/
def PyFloat.absLe (d : PyFloat) (t : ℚ) : Bool :=
  match d with
  | .num q => decide (|q| ≤ t)
  | .nan => false

/-- `float(cell)`: the double value — possibly NaN — or `none` when the
conversion raises `TypeError`/`ValueError`. -/
def pyFloat : Cell → Option PyFloat
  | .num q => some (.num q)
  | .nan => some .nan
  | .nonNumeric => none

/-- One row of the events dataframe consumed by `compute_trades`. -/
structure EventRow : Type where
  as_of : Nat
  delta_fff_bps : Cell
  is_rebal : Bool

/-- One trade dict appended by `compute_trades` (`ret` is the source's
`"return"` key). -/
structure Trade : Type where
  symbol : String
  event_date : Nat
  entry_date : Nat
  exit_date : Nat
  delta_fff_bps : PyFloat
  holding_days : Nat
  entry_price : ℚ
  exit_price : ℚ
  ret : ℚ
deriving DecidableEq

/-- Positional list indexing with a fallback (the semantics of
`list[i]`, with the in-range uses guarded by the callers). -/
def listGetD {α : Type} : List α → Nat → α → α
  | [], _, dflt => dflt
  | a :: _, 0, _ => a
  | _ :: rest, k + 1, dflt => listGetD rest k dflt

/-- The entry-index search loop of `compute_trades`: index of the first
bar date strictly after the event date, `none` when there is none. -/
def findEntryIdx (eventDate : Nat) : List Nat → Option Nat
  | [] => none
  | bd :: rest =>
    if eventDate < bd then some 0
    else (findEntryIdx eventDate rest).map (· + 1)

/-- One iteration of the `compute_trades` loop body, producing the trade
dict for a row or nothing when any `continue` fires. A `none` close models
a falsy price (the source requires each price to be truthy and positive;
for a rational value that conjunction is exactly positivity). -/
def tradeOfRow (symbol : String) (barDates : List Nat)
    (barCloses : List (Option ℚ)) (row : EventRow) : Option Trade :=
  if row.is_rebal then none else
  match pyFloat row.delta_fff_bps with
  | none => none
  | some d =>
    if d.geZero || d.absLe THRESHOLD_BPS then none else
    match findEntryIdx row.as_of barDates with
    | none => none
    | some entryIdx =>
      let exitIdx := entryIdx + HOLDING_DAYS
      if barDates.length ≤ exitIdx then none else
      match listGetD barCloses entryIdx none, listGetD barCloses exitIdx none with
      | some entryPrice, some exitPrice =>
        if 0 < entryPrice ∧ 0 < exitPrice then
          some ⟨symbol, row.as_of, listGetD barDates entryIdx 0,
                listGetD barDates exitIdx 0, d, HOLDING_DAYS, entryPrice,
                exitPrice, (exitPrice - entryPrice) / entryPrice⟩
        else none
      | _, _ => none

/-- `compute_trades`: the trades collected over the event rows in order,
each row contributing via `tradeOfRow`. -/
def compute_trades (symbol : String) (rows : List EventRow)
    (barDates : List Nat) (barCloses : List (Option ℚ)) : List Trade :=
  rows.filterMap (tradeOfRow symbol barDates barCloses)

/-- Python `str.strip()`: drop whitespace from both ends. -/
def pyStrip (s : String) : String :=
  String.mk
    (((s.data.dropWhile Char.isWhitespace).reverse.dropWhile
      Char.isWhitespace).reverse)

/-- Python `str.upper()`. -/
def pyUpper (s : String) : String :=
  String.mk (s.data.map Char.toUpper)

/-- Python `str.startswith("#")`. -/
def startsWithHash (s : String) : Bool :=
  match s.data with
  | c :: _ => c = '#'
  | [] => false

/-- `load_universe`: `none` models a missing `universe.txt`; otherwise the
file's lines. Blank lines and lines starting with `#` are dropped after
stripping, survivors are upper-cased; an empty result is fatal. -/
def load_universe (universeFile : Option (List String)) :
    Except String (List String) :=
  match universeFile with
  | none => .error "universe file not found"
  | some lines =>
    let symbols := ((lines.map pyStrip).filter
      (fun s => !s.data.isEmpty && !(startsWithHash s))).map pyUpper
    if symbols.isEmpty then .error "universe.txt contains no symbols"
    else .ok symbols

/-- Observable outcome of the driver's `main`: either a fatal exit (with
its status and diagnostic) taken before any per-symbol work, or a
completed batch with the trades accumulated over the universe together
with the one status line printed per symbol. -/
inductive MainResult : Type where
  | earlyExit (status : Nat) (diag : String) : MainResult
  | finished (trades : List Trade) (log : List String) : MainResult
deriving DecidableEq

/-- `main` of `src/backtest_simple.py` up to the collected trade list and
the per-symbol output lines: `_require_env` on the three credentials in
source order (the empty string models an unset variable), then
`load_universe`, then the per-symbol loop in which a failed bars or
events fetch is caught, reported with the secrets redacted (in source
order: Alpaca key, Alpaca secret, datawiser key) and the text truncated
to 200 characters, and skips only that symbol. `fetchBars` yields the
(dates, closes) bar lists, `fetchEvents` the normalised event rows. The
config banner and final DONE line are not part of the per-symbol log. -/
def backtestMain (dwKey alpacaKey alpacaSecret : String)
    (universeFile : Option (List String))
    (fetchBars : String → Except String (List Nat × List (Option ℚ)))
    (fetchEvents : String → Except String (List EventRow)) : MainResult :=
  if dwKey = "" then
    .earlyExit 1 "required environment variable DATAWISER_API_KEY is not set"
  else if alpacaKey = "" then
    .earlyExit 1 "required environment variable ALPACA_API_KEY is not set"
  else if alpacaSecret = "" then
    .earlyExit 1 "required environment variable ALPACA_SECRET_KEY is not set"
  else
    match load_universe universeFile with
    | .error diag => .earlyExit 1 diag
    | .ok symbols =>
      let result := symbols.foldl (fun acc symbol =>
        match fetchBars symbol with
        | .error exc =>
          (acc.1, acc.2 ++ ["[" ++ symbol ++ "] ERROR fetching bars: " ++
            truncate200 (redact dwKey (redact alpacaSecret
              (redact alpacaKey exc)))])
        | .ok (barDates, barCloses) =>
          match fetchEvents symbol with
          | .error exc =>
            (acc.1, acc.2 ++ ["[" ++ symbol ++ "] ERROR fetching events: " ++
              truncate200 (redact dwKey (redact alpacaSecret
                (redact alpacaKey exc)))])
          | .ok rows =>
            let trades := compute_trades symbol rows barDates barCloses
            (acc.1 ++ trades, acc.2 ++ ["[" ++ symbol ++ "] " ++
              toString rows.length ++ " events → " ++
              toString trades.length ++ " trades"]))
        ([], [])
      .finished result.1 result.2

/-- The JSON summary document written by `write_outputs`. -/
structure Summary : Type where
  trades : Nat
  avg_return : Option ℚ
  median_return : Option ℚ
  win_rate : Option ℚ
  start_date : String
  end_date : String
  threshold_bps : ℚ
  holding_days : Nat
deriving DecidableEq

/-- The summary part of `write_outputs`: trade count, mean return, median
of the sorted returns (lower-middle/upper-middle mean for even counts),
strict-win fraction, and the run parameters; the three statistics are
`none` for an empty trade list. `END_DATE` is environment-dependent in
the source and passed in here. -/
def write_summary (endDate : String) (all_trades : List Trade) : Summary :=
  let returns := all_trades.map Trade.ret
  let n := returns.length
  let avgRet : Option ℚ := if 0 < n then some (returns.sum / (n : ℚ)) else none
  let sortedRet := List.insertionSort (· ≤ ·) returns
  let mid := n / 2
  let medianRet : Option ℚ :=
    if 0 < n then
      if n % 2 = 1 then some (listGetD sortedRet mid 0)
      else some ((listGetD sortedRet (mid - 1) 0 + listGetD sortedRet mid 0) / 2)
    else none
  let winRate : Option ℚ :=
    if 0 < n then
      some (((returns.filter (fun r => decide (0 < r))).length : ℚ) / (n : ℚ))
    else none
  ⟨n, avgRet, medianRet, winRate, START_DATE, endDate, THRESHOLD_BPS, HOLDING_DAYS⟩

/-! ## Theorems -/

theorem assocLookup_insert_self {α β : Type} [DecidableEq α]
    (l : List (α × β)) (k : α) (v : β) :
    assocLookup (assocInsert l k v) k = some v := by
  simp [assocInsert, assocLookup]

theorem cachedPayload_fcPut (fs : FS) (ep ticker ts ca : String) (d : Json) :
    cachedPayload (fcPut fs ep ticker d ts ca) ep ticker ts = some d := by
  simp [cachedPayload, fcGet, fcPut, assocLookup_insert_self, Json.getField,
    assocLookup]

/-- C3: for every (endpoint, key), Cache Store `get` returns the pair
(none, none) — and, being a total function, does not raise — whenever the
cache file is absent, is not readable as valid compressed JSON, or lacks
the `data`/`last_update` fields; when a valid entry exists it returns
exactly the stored data and stored last-update timestamp, in particular
after any `put`. -/
theorem C3_cache_get_silent (fs : FS) (endpoint key : String) :
    (assocLookup fs (endpoint, key) = none →
      fcGet fs endpoint key = (none, none)) ∧
    (assocLookup fs (endpoint, key) = some .invalid →
      fcGet fs endpoint key = (none, none)) ∧
    (∀ j : Json, assocLookup fs (endpoint, key) = some (.json j) →
      j.getField "data" = none ∨ j.getField "last_update" = none →
      fcGet fs endpoint key = (none, none)) ∧
    (∀ (j d ts : Json), assocLookup fs (endpoint, key) = some (.json j) →
      j.getField "data" = some d → j.getField "last_update" = some ts →
      fcGet fs endpoint key = (some d, some ts)) ∧
    (∀ (d : Json) (ts ca : String),
      fcGet (fcPut fs endpoint key d ts ca) endpoint key
        = (some d, some (.str ts))) := by
  refine ⟨?_, ?_, ?_, ?_, ?_⟩
  · intro h; simp [fcGet, h]
  · intro h; simp [fcGet, h]
  · intro j hj hfield
    rcases hfield with hf | hf <;> simp [fcGet, hj, hf]
  · intro j d ts hj hd hts; simp [fcGet, hj, hd, hts]
  · intro d ts ca
    simp [fcGet, fcPut, assocLookup_insert_self, Json.getField, assocLookup]

/-- Witness for C3 at concrete inputs: an empty directory misses, an
unreadable file misses, and a written entry reads back exactly. -/
theorem C3_cache_get_silent_witness :
    (assocLookup ([] : FS) ("free-float", "OLP") = none ∧
      fcGet [] "free-float" "OLP" = (none, none)) ∧
    (assocLookup ([(("free-float", "BAD"), FileData.invalid)] : FS)
        ("free-float", "BAD") = some .invalid ∧
      fcGet [(("free-float", "BAD"), FileData.invalid)] "free-float" "BAD"
        = (none, none)) ∧
    fcGet (fcPut [] "free-float" "OLP" (.num 1) "2024-01-15T00:00:00Z" "t0")
        "free-float" "OLP"
      = (some (.num 1), some (.str "2024-01-15T00:00:00Z")) :=
  ⟨⟨rfl, (C3_cache_get_silent [] "free-float" "OLP").1 rfl⟩,
   ⟨rfl, (C3_cache_get_silent [(("free-float", "BAD"), FileData.invalid)]
      "free-float" "BAD").2.1 rfl⟩,
   (C3_cache_get_silent [] "free-float" "OLP").2.2.2.2 (.num 1)
     "2024-01-15T00:00:00Z" "t0"⟩

/-- C1: with caching enabled and the ticker present in the manifest, two
consecutive runs of a client data operation against an unchanged manifest
perform at most one remote data fetch in total: the first run leaves the
payload cached under the manifest's timestamp, and the second run performs
zero data fetches and returns the same payload. -/
theorem C1_cache_hit_idempotence (transportGet : String → String → Json)
    (manifest : Manifest) (fs : FS) (epAlias ticker ca1 ca2 : String)
    (entry : ManifestEntry)
    (hm : assocLookup manifest ticker = some entry) :
    ∃ r1 r2 : OpResult,
      dataOp true transportGet manifest fs epAlias ticker ca1 = .ok r1 ∧
      dataOp true transportGet manifest r1.fs epAlias ticker ca2 = .ok r2 ∧
      cachedPayload r1.fs (resolveEndpoint epAlias) ticker entry.last_update
        = some r1.payload ∧
      r2.dataFetches = 0 ∧ r2.payload = r1.payload ∧
      r1.dataFetches + r2.dataFetches ≤ 1 := by
  cases h : cachedPayload fs (resolveEndpoint epAlias) ticker entry.last_update with
  | some d =>
    refine ⟨⟨d, 0, fs⟩, ⟨d, 0, fs⟩, ?_, ?_, ?_, rfl, rfl, ?_⟩
    · simp [dataOp, hm, h]
    · simp [dataOp, hm, h]
    · exact h
    · simp
  | none =>
    refine ⟨⟨transportGet (resolveEndpoint epAlias) ticker, 1,
        fcPut fs (resolveEndpoint epAlias) ticker
          (transportGet (resolveEndpoint epAlias) ticker) entry.last_update ca1⟩,
      ⟨transportGet (resolveEndpoint epAlias) ticker, 0,
        fcPut fs (resolveEndpoint epAlias) ticker
          (transportGet (resolveEndpoint epAlias) ticker) entry.last_update ca1⟩,
      ?_, ?_, ?_, rfl, rfl, ?_⟩
    · simp [dataOp, hm, h]
    · simp [dataOp, hm, cachedPayload_fcPut]
    · exact cachedPayload_fcPut ..
    · simp

/-- Witness for C1: a concrete manifest, an empty cache and a mocked
transport; the hypothesis that "OLP" is in the manifest is discharged by
evaluation. -/
theorem C1_cache_hit_idempotence_witness :
    assocLookup
      [("OLP", (⟨"OLP", "OLPsec01", "2024-04-01T00:00:00Z",
        some "2024-03-20T00:00:00Z"⟩ : ManifestEntry))] "OLP"
      = some (⟨"OLP", "OLPsec01", "2024-04-01T00:00:00Z",
        some "2024-03-20T00:00:00Z"⟩ : ManifestEntry) ∧
    ∃ r1 r2 : OpResult,
      dataOp true (fun _ _ => Json.num 42)
        [("OLP", ⟨"OLP", "OLPsec01", "2024-04-01T00:00:00Z",
          some "2024-03-20T00:00:00Z"⟩)] [] "free_float" "OLP" "t1" = .ok r1 ∧
      dataOp true (fun _ _ => Json.num 42)
        [("OLP", ⟨"OLP", "OLPsec01", "2024-04-01T00:00:00Z",
          some "2024-03-20T00:00:00Z"⟩)] r1.fs "free_float" "OLP" "t2" = .ok r2 ∧
      cachedPayload r1.fs (resolveEndpoint "free_float") "OLP"
        "2024-04-01T00:00:00Z" = some r1.payload ∧
      r2.dataFetches = 0 ∧ r2.payload = r1.payload ∧
      r1.dataFetches + r2.dataFetches ≤ 1 :=
  ⟨rfl, C1_cache_hit_idempotence (fun _ _ => Json.num 42)
    [("OLP", ⟨"OLP", "OLPsec01", "2024-04-01T00:00:00Z",
      some "2024-03-20T00:00:00Z"⟩)] [] "free_float" "OLP" "t1" "t2"
    ⟨"OLP", "OLPsec01", "2024-04-01T00:00:00Z", some "2024-03-20T00:00:00Z"⟩ rfl⟩

/-- C4: a ticker absent from the endpoint's fetched manifest makes the
data operation fail with a ticker-not-found error whose `ticker` is the
requested ticker and whose `endpoint` is the resolved canonical endpoint
name. -/
theorem C4_ticker_not_found (useCache : Bool)
    (transportGet : String → String → Json) (manifest : Manifest) (fs : FS)
    (epAlias ticker ca : String)
    (hm : assocLookup manifest ticker = none) :
    ∃ e : TickerNotFoundError,
      dataOp useCache transportGet manifest fs epAlias ticker ca = .error e ∧
      e.ticker = ticker ∧ e.endpoint = resolveEndpoint epAlias := by
  refine ⟨⟨ticker, resolveEndpoint epAlias⟩, ?_, rfl, rfl⟩
  simp [dataOp, hm]

/-- Witness for C4: the ticker "UNKNOWN" is absent from the concrete
manifest, and the alias "free_float" resolves to "free-float". -/
theorem C4_ticker_not_found_witness :
    assocLookup
      [("OLP", (⟨"OLP", "OLPsec01", "2024-04-01T00:00:00Z",
        some "2024-03-20T00:00:00Z"⟩ : ManifestEntry))] "UNKNOWN" = none ∧
    (∃ e : TickerNotFoundError,
      dataOp true (fun _ _ => Json.null)
        [("OLP", ⟨"OLP", "OLPsec01", "2024-04-01T00:00:00Z",
          some "2024-03-20T00:00:00Z"⟩)] [] "free_float" "UNKNOWN" "t0"
        = .error e ∧
      e.ticker = "UNKNOWN" ∧ e.endpoint = resolveEndpoint "free_float") ∧
    resolveEndpoint "free_float" = "free-float" :=
  ⟨rfl, C4_ticker_not_found true (fun _ _ => Json.null)
    [("OLP", ⟨"OLP", "OLPsec01", "2024-04-01T00:00:00Z",
      some "2024-03-20T00:00:00Z"⟩)] [] "free_float" "UNKNOWN" "t0" rfl,
   by decide⟩

theorem latestBy_cons {α : Type} (asOf : α → Nat) (e : α) (rest : List α) :
    ∃ b, latestBy asOf (e :: rest) = some b := by
  cases h : latestBy asOf rest with
  | none => exact ⟨e, by simp [latestBy, h]⟩
  | some b =>
    by_cases hlt : asOf b < asOf e
    · exact ⟨e, by simp [latestBy, h, hlt]⟩
    · exact ⟨b, by simp [latestBy, h, hlt]⟩

theorem latestBy_spec {α : Type} (asOf : α → Nat) :
    ∀ (l : List α) (e : α), latestBy asOf l = some e →
      (∀ x ∈ l, asOf x ≤ asOf e) ∧
      ∃ i, ∃ hi : i < l.length, l.get ⟨i, hi⟩ = e ∧
        ∀ j, ∀ hj : j < l.length, i < j → asOf (l.get ⟨j, hj⟩) < asOf e := by
  intro l
  induction l with
  | nil => intro e h; simp [latestBy] at h
  | cons a rest ih =>
    intro e h
    cases hres : latestBy asOf rest with
    | none =>
      have hrest : rest = [] := by
        cases rest with
        | nil => rfl
        | cons b rs =>
          obtain ⟨c, hc⟩ := latestBy_cons asOf b rs
          rw [hc] at hres; cases hres
      subst hrest
      simp only [latestBy] at h
      obtain rfl : a = e := by injection h
      refine ⟨?_, 0, Nat.succ_pos _, rfl, ?_⟩
      · intro x hx
        simp only [List.mem_singleton] at hx
        subst hx; exact le_refl _
      · intro j hj hij
        simp only [List.length_singleton] at hj
        omega
    | some b =>
      simp only [latestBy, hres] at h
      obtain ⟨hmax, i, hi, hget, hafter⟩ := ih b hres
      by_cases hlt : asOf b < asOf a
      · rw [if_pos hlt] at h
        obtain rfl : a = e := by injection h
        refine ⟨?_, 0, Nat.succ_pos _, rfl, ?_⟩
        · intro x hx
          rcases List.mem_cons.mp hx with rfl | hx
          · exact le_refl _
          · exact le_of_lt (lt_of_le_of_lt (hmax x hx) hlt)
        · intro j hj hij
          cases j with
          | zero => omega
          | succ k =>
            have hk : k < rest.length := Nat.lt_of_succ_lt_succ hj
            have hstep : (a :: rest).get ⟨k + 1, hj⟩ = rest.get ⟨k, hk⟩ := rfl
            rw [hstep]
            exact lt_of_le_of_lt (hmax _ (rest.get_mem k hk)) hlt
      · rw [if_neg hlt] at h
        obtain rfl : b = e := by injection h
        push_neg at hlt
        refine ⟨?_, i + 1, Nat.succ_lt_succ hi, hget, ?_⟩
        · intro x hx
          rcases List.mem_cons.mp hx with rfl | hx
          · exact hlt
          · exact hmax x hx
        · intro j hj hij
          cases j with
          | zero => omega
          | succ k =>
            have hk : k < rest.length := Nat.lt_of_succ_lt_succ hj
            have hstep : (a :: rest).get ⟨k + 1, hj⟩ = rest.get ⟨k, hk⟩ := rfl
            rw [hstep]
            exact hafter k hk (Nat.lt_of_succ_lt_succ hij)

/-- C6: `FreeFloat.latest` and `SharesOutstanding.latest` return none on
an empty event sequence, some event otherwise, and any returned event has
the maximal `as_of`; among tied maxima it is the last-occurring one in
input order (every later event is strictly older). -/
theorem C6_latest_max (ff : FreeFloat) (so : SharesOutstanding) :
    (ff.events = [] → ff.latest = none) ∧
    (ff.events ≠ [] → ∃ e, ff.latest = some e) ∧
    (∀ e, ff.latest = some e →
      (∀ x ∈ ff.events, x.as_of ≤ e.as_of) ∧
      ∃ i, ∃ hi : i < ff.events.length, ff.events.get ⟨i, hi⟩ = e ∧
        ∀ j, ∀ hj : j < ff.events.length, i < j →
          (ff.events.get ⟨j, hj⟩).as_of < e.as_of) ∧
    (so.events = [] → so.latest = none) ∧
    (so.events ≠ [] → ∃ e, so.latest = some e) ∧
    (∀ e, so.latest = some e →
      (∀ x ∈ so.events, x.as_of ≤ e.as_of) ∧
      ∃ i, ∃ hi : i < so.events.length, so.events.get ⟨i, hi⟩ = e ∧
        ∀ j, ∀ hj : j < so.events.length, i < j →
          (so.events.get ⟨j, hj⟩).as_of < e.as_of) := by
  refine ⟨?_, ?_, ?_, ?_, ?_, ?_⟩
  · intro h; simp [FreeFloat.latest, h, latestBy]
  · intro h
    cases hev : ff.events with
    | nil => exact absurd hev h
    | cons a rest =>
      obtain ⟨b, hb⟩ := latestBy_cons FreeFloatEvent.as_of a rest
      exact ⟨b, by simp [FreeFloat.latest, hev, hb]⟩
  · intro e h
    exact latestBy_spec FreeFloatEvent.as_of ff.events e h
  · intro h; simp [SharesOutstanding.latest, h, latestBy]
  · intro h
    cases hev : so.events with
    | nil => exact absurd hev h
    | cons a rest =>
      obtain ⟨b, hb⟩ := latestBy_cons SharesOutstandingEvent.as_of a rest
      exact ⟨b, by simp [SharesOutstanding.latest, hev, hb]⟩
  · intro e h
    exact latestBy_spec SharesOutstandingEvent.as_of so.events e h

/-- Witness for C6: two free-float events tied on `as_of` — `latest`
returns the later-occurring one — and an empty shares-outstanding record
returns none. -/
theorem C6_latest_max_witness :
    FreeFloat.latest ⟨"OLP", "OLPsec01",
      [⟨100, 1/2, 50, 1000, 10⟩, ⟨100, 3/4, 75, 2000, 20⟩]⟩
      = some ⟨100, 3/4, 75, 2000, 20⟩ ∧
    (∀ x ∈ [(⟨100, 1/2, 50, 1000, 10⟩ : FreeFloatEvent),
        ⟨100, 3/4, 75, 2000, 20⟩],
      x.as_of ≤ (100 : Nat)) ∧
    SharesOutstanding.latest ⟨"X", "Y", []⟩ = none := by
  refine ⟨rfl, ?_, ?_⟩
  · have h := (C6_latest_max
      ⟨"OLP", "OLPsec01", [⟨100, 1/2, 50, 1000, 10⟩, ⟨100, 3/4, 75, 2000, 20⟩]⟩
      ⟨"X", "Y", []⟩).2.2.1 ⟨100, 3/4, 75, 2000, 20⟩ rfl
    exact h.1
  · exact (C6_latest_max
      ⟨"OLP", "OLPsec01", [⟨100, 1/2, 50, 1000, 10⟩, ⟨100, 3/4, 75, 2000, 20⟩]⟩
      ⟨"X", "Y", []⟩).2.2.2.1 rfl

/-- C7: a `FreeFloatEventSummary` constructed from an event carries
`delta_fff_bps = (delta_ff_factor / ff_factor) * 10000` whenever
`ff_factor` is nonzero — in particular the 0.80 / 0.02 instance is within
1e-9 of 250 (exactly 250 over the rationals) — and `delta_fff_bps` is
none whenever `ff_factor` is zero. -/
theorem C7_delta_fff_bps (asOf : Nat) (ffFactor deltaFf : ℚ) (isRebal : Bool)
    (sharesOut : ℚ) :
    (ffFactor ≠ 0 →
      (FreeFloatEventSummary.fromEvent asOf ffFactor deltaFf isRebal
        sharesOut).delta_fff_bps = some (deltaFf / ffFactor * 10000)) ∧
    (ffFactor = 0 →
      (FreeFloatEventSummary.fromEvent asOf ffFactor deltaFf isRebal
        sharesOut).delta_fff_bps = none) ∧
    (∀ v, (FreeFloatEventSummary.fromEvent asOf (80/100) (2/100) isRebal
        sharesOut).delta_fff_bps = some v → |v - 250| ≤ 1 / 1000000000) := by
  refine ⟨?_, ?_, ?_⟩
  · intro h; simp [FreeFloatEventSummary.fromEvent, h]
  · intro h; simp [FreeFloatEventSummary.fromEvent, h]
  · intro v hv
    simp only [FreeFloatEventSummary.fromEvent] at hv
    rw [if_neg (by norm_num)] at hv
    obtain rfl : (2 / 100 : ℚ) / (80 / 100) * 10000 = v := by injection hv
    norm_num

/-- Witness for C7 at `ff_factor = 0.80`, `delta_ff_factor = 0.02`: the
nonzero hypothesis is discharged numerically and the derived field equals
exactly 250 basis points. -/
theorem C7_delta_fff_bps_witness :
    ((80 : ℚ) / 100 ≠ 0) ∧
    (FreeFloatEventSummary.fromEvent 738000 (80/100) (2/100) false
      10000000).delta_fff_bps = some ((2/100 : ℚ) / (80/100) * 10000) ∧
    ((2/100 : ℚ) / (80/100) * 10000) = 250 :=
  ⟨by norm_num,
   (C7_delta_fff_bps 738000 (80/100) (2/100) false 10000000).1 (by norm_num),
   by norm_num⟩

/-- C2: the claim requires each smoke-test script's failure line to
include the redacted, truncated error text; `src/alpaca_smoke_test.py`
builds its FAIL (and PASS) message with doubled braces, so the script
prints the constant line `FAIL alpaca_account` followed by a literal
brace-wrapped `reason` and the sanitised error text never appears, even
though the script computes it. The datawiser script behaves as claimed:
its failure line carries the redacted, truncated error text. Both
evaluations are at the concrete failing input below. -/
theorem C2_smoke_line_evaluation :
    alpacaSmokeMain "AKIAKEY" "SECRETKEY"
        (.error "unauthorized request for key AKIAKEY")
      = ("FAIL alpaca_account {reason}", 1) ∧
    datawiserSmokeMain "DWKEY" (.error "bad token DWKEY rejected")
      = ("FAIL datawiser_smoke bad token *** rejected", 1) :=
  ⟨rfl, rfl⟩

/-- C9: an event row whose trade-signal cell `float(...)` rejects
produces no trade and raises none (the loop body is total), and the
remaining rows yield exactly the trades they would yield were the
malformed row absent. -/
theorem C9_malformed_row_skipped (symbol : String) (barDates : List Nat)
    (barCloses : List (Option ℚ)) (pre post : List EventRow) (row : EventRow)
    (h : pyFloat row.delta_fff_bps = none) :
    compute_trades symbol (pre ++ row :: post) barDates barCloses
      = compute_trades symbol (pre ++ post) barDates barCloses := by
  have hnone : tradeOfRow symbol barDates barCloses row = none := by
    unfold tradeOfRow
    by_cases hr : row.is_rebal <;> simp [hr, h]
  simp [compute_trades, List.filterMap_append, List.filterMap_cons, hnone]

/-- Witness for C9: a malformed middle row between two rows, the first of
which produces a trade; the trades are identical with and without the
malformed row. -/
theorem C9_malformed_row_skipped_witness :
    pyFloat (Cell.nonNumeric) = none ∧
    compute_trades "OLP"
        [⟨10, .num (-60), false⟩, ⟨12, .nonNumeric, false⟩]
        [11, 12, 13, 14, 15, 16]
        [some 100, some 101, some 102, some 103, some 104, some 110]
      = compute_trades "OLP" [⟨10, .num (-60), false⟩]
        [11, 12, 13, 14, 15, 16]
        [some 100, some 101, some 102, some 103, some 104, some 110] :=
  ⟨rfl, C9_malformed_row_skipped "OLP" [11, 12, 13, 14, 15, 16]
    [some 100, some 101, some 102, some 103, some 104, some 110]
    [⟨10, .num (-60), false⟩] [] ⟨12, .nonNumeric, false⟩ rfl⟩

theorem findEntryIdx_none {d : Nat} :
    ∀ {l : List Nat}, findEntryIdx d l = none →
      ∀ i, ∀ hi : i < l.length, l.get ⟨i, hi⟩ ≤ d := by
  intro l
  induction l with
  | nil => intro _ i hi; simp at hi
  | cons bd rest ih =>
    intro h i hi
    by_cases hbd : d < bd
    · simp [findEntryIdx, hbd] at h
    · simp only [findEntryIdx, if_neg hbd, Option.map_eq_none'] at h
      cases i with
      | zero => exact Nat.le_of_not_lt hbd
      | succ k => exact ih h k (Nat.lt_of_succ_lt_succ hi)

theorem findEntryIdx_some {d : Nat} :
    ∀ {l : List Nat} {i : Nat}, findEntryIdx d l = some i →
      ∃ hi : i < l.length, d < l.get ⟨i, hi⟩ ∧
        ∀ k, ∀ hk : k < l.length, k < i → l.get ⟨k, hk⟩ ≤ d := by
  intro l
  induction l with
  | nil => intro i h; simp [findEntryIdx] at h
  | cons bd rest ih =>
    intro i h
    by_cases hbd : d < bd
    · simp only [findEntryIdx, if_pos hbd] at h
      obtain rfl : (0 : Nat) = i := by injection h
      exact ⟨Nat.succ_pos _, hbd, fun k hk hki => absurd hki (Nat.not_lt_zero k)⟩
    · simp only [findEntryIdx, if_neg hbd, Option.map_eq_some'] at h
      obtain ⟨j, hj, rfl⟩ := h
      obtain ⟨hjlen, hjgt, hjbefore⟩ := ih hj
      refine ⟨Nat.succ_lt_succ hjlen, hjgt, ?_⟩
      intro k hk hki
      cases k with
      | zero => exact Nat.le_of_not_lt hbd
      | succ m =>
        exact hjbefore m (Nat.lt_of_succ_lt_succ hk) (Nat.lt_of_succ_lt_succ hki)

theorem listGetD_eq_get {α : Type} :
    ∀ (l : List α) (dflt : α) (i : Nat) (hi : i < l.length),
      listGetD l i dflt = l.get ⟨i, hi⟩ := by
  intro l dflt
  induction l with
  | nil => intro i hi; simp at hi
  | cons a rest ih =>
    intro i hi
    cases i with
    | zero => rfl
    | succ k => exact ih k (Nat.lt_of_succ_lt_succ hi)

/-- C10 (amended): `tradeOfRow` (the `compute_trades` loop body) emits a
trade only for a non-rebalance row whose signal converts to a double that
is either NaN or strictly below −50 bps — NaN passes because both
branches of the threshold test are false IEEE comparisons, so the
original claim's "strictly below −50" alone is refuted by
`C10_nan_counterexample`; a finite signal must be strictly below −50.
The entry bar is the first bar strictly after the event date, the exit
bar is exactly 5 bars later, the return is (exit − entry) / entry, and
the row is silently dropped when no bar lies after the event date, when
fewer than 5 bars follow the entry bar, or when either close is missing
or non-positive. -/
theorem C10_trade_conditions (symbol : String) (barDates : List Nat)
    (barCloses : List (Option ℚ)) (row : EventRow) :
    (∀ t, tradeOfRow symbol barDates barCloses row = some t →
      row.is_rebal = false ∧
      ∃ d, pyFloat row.delta_fff_bps = some d ∧
        (d = PyFloat.nan ∨ ∃ q, d = PyFloat.num q ∧ q < -50) ∧
        t.symbol = symbol ∧ t.event_date = row.as_of ∧
        t.delta_fff_bps = d ∧ t.holding_days = 5 ∧
        ∃ i, findEntryIdx row.as_of barDates = some i ∧
          ∃ hi : i < barDates.length,
            row.as_of < barDates.get ⟨i, hi⟩ ∧
            (∀ k, ∀ hk : k < barDates.length, k < i →
              barDates.get ⟨k, hk⟩ ≤ row.as_of) ∧
            ∃ hx : i + 5 < barDates.length,
              t.entry_date = barDates.get ⟨i, hi⟩ ∧
              t.exit_date = barDates.get ⟨i + 5, hx⟩ ∧
              listGetD barCloses i none = some t.entry_price ∧
              listGetD barCloses (i + 5) none = some t.exit_price ∧
              0 < t.entry_price ∧ 0 < t.exit_price ∧
              t.ret = (t.exit_price - t.entry_price) / t.entry_price) ∧
    (row.is_rebal = true → tradeOfRow symbol barDates barCloses row = none) ∧
    (∀ q, pyFloat row.delta_fff_bps = some (PyFloat.num q) → -50 ≤ q →
      tradeOfRow symbol barDates barCloses row = none) ∧
    ((∀ i, ∀ hi : i < barDates.length, barDates.get ⟨i, hi⟩ ≤ row.as_of) →
      tradeOfRow symbol barDates barCloses row = none) ∧
    (∀ i, findEntryIdx row.as_of barDates = some i →
      barDates.length ≤ i + 5 →
      tradeOfRow symbol barDates barCloses row = none) ∧
    (∀ i, findEntryIdx row.as_of barDates = some i →
      ((¬ ∃ p, listGetD barCloses i none = some p ∧ 0 < p) ∨
        (¬ ∃ p, listGetD barCloses (i + 5) none = some p ∧ 0 < p)) →
      tradeOfRow symbol barDates barCloses row = none) := by
  have hmain : ∀ t, tradeOfRow symbol barDates barCloses row = some t →
      row.is_rebal = false ∧
      ∃ d, pyFloat row.delta_fff_bps = some d ∧
        (d = PyFloat.nan ∨ ∃ q, d = PyFloat.num q ∧ q < -50) ∧
        t.symbol = symbol ∧ t.event_date = row.as_of ∧
        t.delta_fff_bps = d ∧ t.holding_days = 5 ∧
        ∃ i, findEntryIdx row.as_of barDates = some i ∧
          ∃ hi : i < barDates.length,
            row.as_of < barDates.get ⟨i, hi⟩ ∧
            (∀ k, ∀ hk : k < barDates.length, k < i →
              barDates.get ⟨k, hk⟩ ≤ row.as_of) ∧
            ∃ hx : i + 5 < barDates.length,
              t.entry_date = barDates.get ⟨i, hi⟩ ∧
              t.exit_date = barDates.get ⟨i + 5, hx⟩ ∧
              listGetD barCloses i none = some t.entry_price ∧
              listGetD barCloses (i + 5) none = some t.exit_price ∧
              0 < t.entry_price ∧ 0 < t.exit_price ∧
              t.ret = (t.exit_price - t.entry_price) / t.entry_price := by
    intro t ht
    unfold tradeOfRow at ht
    cases hrb : row.is_rebal with
    | true => simp [hrb] at ht
    | false =>
    simp only [hrb, Bool.false_eq_true, if_false] at ht
    cases hp : pyFloat row.delta_fff_bps with
    | none => simp [hp] at ht
    | some d =>
    simp only [hp] at ht
    by_cases hgate : (d.geZero || d.absLe THRESHOLD_BPS) = true
    · rw [if_pos hgate] at ht
      exact Option.noConfusion ht
    · rw [if_neg hgate] at ht
      have hd50 : d = PyFloat.nan ∨ ∃ q, d = PyFloat.num q ∧ q < -50 := by
        cases d with
        | nan => exact Or.inl rfl
        | num q =>
          refine Or.inr ⟨q, rfl, ?_⟩
          simp only [PyFloat.geZero, PyFloat.absLe, Bool.or_eq_true,
            decide_eq_true_eq] at hgate
          push_neg at hgate
          obtain ⟨hneg, habs⟩ := hgate
          rw [THRESHOLD_BPS] at habs
          rw [abs_of_neg hneg] at habs
          linarith
      cases hf : findEntryIdx row.as_of barDates with
      | none => simp [hf] at ht
      | some i =>
      simp only [hf, HOLDING_DAYS] at ht
      obtain ⟨hi, hgt, hbefore⟩ := findEntryIdx_some hf
      by_cases hlen : barDates.length ≤ i + 5
      · simp [hlen] at ht
      · rw [if_neg hlen] at ht
        have hx : i + 5 < barDates.length := Nat.lt_of_not_le hlen
        cases he : listGetD barCloses i none with
        | none => simp [he] at ht
        | some ep =>
        cases hxp : listGetD barCloses (i + 5) none with
        | none => simp [he, hxp] at ht
        | some xp =>
        simp only [he, hxp] at ht
        by_cases hpos : 0 < ep ∧ 0 < xp
        · rw [if_pos hpos] at ht
          obtain rfl :
              (⟨symbol, row.as_of, listGetD barDates i 0, listGetD barDates (i + 5) 0,
                d, 5, ep, xp, (xp - ep) / ep⟩ : Trade) = t := by injection ht
          refine ⟨rfl, d, rfl, hd50, rfl, rfl, rfl, rfl,
            i, rfl, hi, hgt, hbefore, hx, ?_, ?_, he, hxp, hpos.1, hpos.2, rfl⟩
          · exact listGetD_eq_get barDates 0 i hi
          · exact listGetD_eq_get barDates 0 (i + 5) hx
        · simp [hpos] at ht
  refine ⟨hmain, ?_, ?_, ?_, ?_, ?_⟩
  · intro hreb
    cases htr : tradeOfRow symbol barDates barCloses row with
    | none => rfl
    | some t =>
      have := (hmain t htr).1
      rw [hreb] at this; cases this
  · intro q hq hge
    cases htr : tradeOfRow symbol barDates barCloses row with
    | none => rfl
    | some t =>
      obtain ⟨-, d', hd', hdisj, -⟩ := hmain t htr
      rw [hq] at hd'
      obtain rfl : PyFloat.num q = d' := by injection hd'
      rcases hdisj with hnan | ⟨q', hq', hlt⟩
      · exact PyFloat.noConfusion hnan
      · obtain rfl : q = q' := by injection hq'
        linarith
  · intro hall
    cases htr : tradeOfRow symbol barDates barCloses row with
    | none => rfl
    | some t =>
      obtain ⟨-, d', -, -, -, -, -, -, i, -, hi, hgt, -⟩ := hmain t htr
      exact absurd hgt (not_lt.mpr (hall i hi))
  · intro i hf hlen
    cases htr : tradeOfRow symbol barDates barCloses row with
    | none => rfl
    | some t =>
      obtain ⟨-, d', -, -, -, -, -, -, i', hf', hi', -, -, hx, -⟩ := hmain t htr
      rw [hf] at hf'
      obtain rfl : i = i' := by injection hf'
      omega
  · intro i hf hbad
    cases htr : tradeOfRow symbol barDates barCloses row with
    | none => rfl
    | some t =>
      obtain ⟨-, d', -, -, -, -, -, -, i', hf', hi', -, -, hx, -, -,
        he, hxe, hep, hxpp, -⟩ := hmain t htr
      rw [hf] at hf'
      obtain rfl : i = i' := by injection hf'
      rcases hbad with hb | hb
      · exact (hb ⟨t.entry_price, he, hep⟩).elim
      · exact (hb ⟨t.exit_price, hxe, hxpp⟩).elim

/-- C10 counterexample: a NaN trade signal — which `fetch_events`
produces for any non-numeric signal via `pd.to_numeric(...,
errors="coerce")`, e.g. the spec's none-valued `delta_fff_bps` when
`ff_factor` is zero — passes `float(...)` and fails both branches of the
threshold test, so the loop body emits a trade whose signal is not a
number strictly below −50 bps, refuting the claim's "only if" as
originally stated. -/
theorem C10_nan_counterexample :
    tradeOfRow "OLP" [11, 12, 13, 14, 15, 16]
        [some 100, some 101, some 102, some 103, some 104, some 110]
        ⟨10, .nan, false⟩
      = some ⟨"OLP", 10, 11, 16, .nan, 5, 100, 110, (110 - 100) / 100⟩ ∧
    ¬ ∃ q : ℚ, PyFloat.nan = PyFloat.num q ∧ q < -50 :=
  ⟨rfl, fun h => h.elim (fun _ hq => PyFloat.noConfusion hq.1)⟩

/-- Witness for C10: a concrete row with a finite signal below the
threshold and six bars after the event date; the emitted trade and its
fields are checked by evaluation, with the theorem applied to the
evaluated trade. -/
theorem C10_trade_conditions_witness :
    tradeOfRow "OLP" [11, 12, 13, 14, 15, 16]
        [some 100, some 101, some 102, some 103, some 104, some 110]
        ⟨10, .num (-60), false⟩
      = some ⟨"OLP", 10, 11, 16, .num (-60), 5, 100, 110, (110 - 100) / 100⟩ ∧
    (⟨10, .num (-60), false⟩ : EventRow).is_rebal = false ∧
    ∃ d, pyFloat (⟨10, .num (-60), false⟩ : EventRow).delta_fff_bps
      = some d ∧ (d = PyFloat.nan ∨ ∃ q, d = PyFloat.num q ∧ q < -50) := by
  have h := (C10_trade_conditions "OLP" [11, 12, 13, 14, 15, 16]
    [some 100, some 101, some 102, some 103, some 104, some 110]
    ⟨10, .num (-60), false⟩).1
    ⟨"OLP", 10, 11, 16, .num (-60), 5, 100, 110, (110 - 100) / 100⟩ rfl
  exact ⟨rfl, h.1, h.2.elim (fun d hd => ⟨d, hd.1, hd.2.1⟩)⟩

/-- C5: in the backtest driver's `main`, a missing credential or a
missing universe file is fatal — the run ends before any per-symbol work
with exit status 1 and a diagnostic — whereas with configuration in place
the batch result is the concatenation of per-symbol trade lists, each
symbol contributing independently of every other: a symbol whose bars or
events fetch fails contributes nothing to the trades, leaves a report
line naming that symbol in the log, and all other symbols' trades are
still included. -/
theorem C5_batch_isolation (dwKey alpacaKey alpacaSecret : String)
    (universeFile : Option (List String))
    (fetchBars : String → Except String (List Nat × List (Option ℚ)))
    (fetchEvents : String → Except String (List EventRow)) :
    (dwKey = "" ∨ alpacaKey = "" ∨ alpacaSecret = "" →
      ∃ diag, backtestMain dwKey alpacaKey alpacaSecret universeFile
        fetchBars fetchEvents = .earlyExit 1 diag) ∧
    (dwKey ≠ "" → alpacaKey ≠ "" → alpacaSecret ≠ "" → universeFile = none →
      backtestMain dwKey alpacaKey alpacaSecret universeFile fetchBars
        fetchEvents = .earlyExit 1 "universe file not found") ∧
    (∀ symbols, dwKey ≠ "" → alpacaKey ≠ "" → alpacaSecret ≠ "" →
      load_universe universeFile = .ok symbols →
      backtestMain dwKey alpacaKey alpacaSecret universeFile fetchBars
          fetchEvents
        = .finished ((symbols.map (fun symbol =>
            match fetchBars symbol, fetchEvents symbol with
            | .ok (bd, bc), .ok rows => compute_trades symbol rows bd bc
            | _, _ => [])).flatten)
          (symbols.map (fun symbol =>
            match fetchBars symbol with
            | .error exc => "[" ++ symbol ++ "] ERROR fetching bars: " ++
                truncate200 (redact dwKey (redact alpacaSecret
                  (redact alpacaKey exc)))
            | .ok (bd, bc) =>
              match fetchEvents symbol with
              | .error exc => "[" ++ symbol ++ "] ERROR fetching events: " ++
                  truncate200 (redact dwKey (redact alpacaSecret
                    (redact alpacaKey exc)))
              | .ok rows => "[" ++ symbol ++ "] " ++
                  toString rows.length ++ " events → " ++
                  toString (compute_trades symbol rows bd bc).length ++
                  " trades"))) := by
  refine ⟨?_, ?_, ?_⟩
  · intro h
    rcases h with h | h | h
    · exact ⟨"required environment variable DATAWISER_API_KEY is not set",
        by simp [backtestMain, h]⟩
    · by_cases h1 : dwKey = ""
      · exact ⟨"required environment variable DATAWISER_API_KEY is not set",
          by simp [backtestMain, h1]⟩
      · exact ⟨"required environment variable ALPACA_API_KEY is not set",
          by simp [backtestMain, h1, h]⟩
    · by_cases h1 : dwKey = ""
      · exact ⟨"required environment variable DATAWISER_API_KEY is not set",
          by simp [backtestMain, h1]⟩
      · by_cases h2 : alpacaKey = ""
        · exact ⟨"required environment variable ALPACA_API_KEY is not set",
            by simp [backtestMain, h1, h2]⟩
        · exact ⟨"required environment variable ALPACA_SECRET_KEY is not set",
            by simp [backtestMain, h1, h2, h]⟩
  · intro h1 h2 h3 hfile
    subst hfile
    simp [backtestMain, h1, h2, h3, load_universe]
  · intro symbols h1 h2 h3 hload
    have key : ∀ (syms : List String) (acc : List Trade × List String),
        syms.foldl (fun acc symbol =>
          match fetchBars symbol with
          | .error exc =>
            (acc.1, acc.2 ++ ["[" ++ symbol ++ "] ERROR fetching bars: " ++
              truncate200 (redact dwKey (redact alpacaSecret
                (redact alpacaKey exc)))])
          | .ok (barDates, barCloses) =>
            match fetchEvents symbol with
            | .error exc =>
              (acc.1, acc.2 ++ ["[" ++ symbol ++
                "] ERROR fetching events: " ++
                truncate200 (redact dwKey (redact alpacaSecret
                  (redact alpacaKey exc)))])
            | .ok rows =>
              let trades := compute_trades symbol rows barDates barCloses
              (acc.1 ++ trades, acc.2 ++ ["[" ++ symbol ++ "] " ++
                toString rows.length ++ " events → " ++
                toString trades.length ++ " trades"]))
          acc
        = (acc.1 ++ ((syms.map (fun symbol =>
            match fetchBars symbol, fetchEvents symbol with
            | .ok (bd, bc), .ok rows => compute_trades symbol rows bd bc
            | _, _ => [])).flatten),
           acc.2 ++ syms.map (fun symbol =>
            match fetchBars symbol with
            | .error exc => "[" ++ symbol ++ "] ERROR fetching bars: " ++
                truncate200 (redact dwKey (redact alpacaSecret
                  (redact alpacaKey exc)))
            | .ok (bd, bc) =>
              match fetchEvents symbol with
              | .error exc => "[" ++ symbol ++ "] ERROR fetching events: " ++
                  truncate200 (redact dwKey (redact alpacaSecret
                    (redact alpacaKey exc)))
              | .ok rows => "[" ++ symbol ++ "] " ++
                  toString rows.length ++ " events → " ++
                  toString (compute_trades symbol rows bd bc).length ++
                  " trades")) := by
      intro syms
      induction syms with
      | nil => intro acc; simp
      | cons s rest ih =>
        intro acc
        simp only [List.foldl_cons, List.map_cons, List.flatten_cons]
        cases hb : fetchBars s with
        | error e =>
          cases he : fetchEvents s with
          | error e2 => simp [ih, hb, he, List.append_assoc]
          | ok rows => simp [ih, hb, he, List.append_assoc]
        | ok p =>
          obtain ⟨bd, bc⟩ := p
          cases he : fetchEvents s with
          | error e2 => simp [ih, hb, he, List.append_assoc]
          | ok rows => simp [ih, hb, he, List.append_assoc]
    simp only [backtestMain, if_neg h1, if_neg h2, if_neg h3, hload]
    rw [key symbols ([], [])]
    simp

/-- Witness for C5: config present, a four-line universe file (one
comment, one blank line), bars failing for AAPL only; MSFT's trade is
still computed and AAPL contributes nothing. -/
theorem C5_batch_isolation_witness :
    load_universe (some ["aapl", "# comment", "", "msft"])
      = .ok ["AAPL", "MSFT"] ∧
    backtestMain "dw" "ak" "as" (some ["aapl", "# comment", "", "msft"])
        (fun s => if s = "AAPL" then .error "http 500"
          else .ok ([11, 12, 13, 14, 15, 16],
            [some 100, some 101, some 102, some 103, some 104, some 110]))
        (fun _ => .ok [⟨10, .num (-60), false⟩])
      = .finished [⟨"MSFT", 10, 11, 16, .num (-60), 5, 100, 110, (110 - 100) / 100⟩]
          ["[AAPL] ERROR fetching bars: http 500",
           "[MSFT] 1 events → 1 trades"] := by
  refine ⟨rfl, ?_⟩
  have h := (C5_batch_isolation "dw" "ak" "as"
    (some ["aapl", "# comment", "", "msft"])
    (fun s => if s = "AAPL" then .error "http 500"
      else .ok ([11, 12, 13, 14, 15, 16],
        [some 100, some 101, some 102, some 103, some 104, some 110]))
    (fun _ => .ok [⟨10, .num (-60), false⟩])).2.2
    ["AAPL", "MSFT"] (by decide) (by decide) (by decide) rfl
  rw [h]
  rfl

/-- C8: the summary reports exactly the trade count, the average return
`sum / n`, the median of the sorted returns (the middle element for odd
`n`, the mean of the two middle elements for even `n`), the win rate (the
fraction of trades with return strictly above 0), and the run's start
date, end date, threshold and holding-days parameters; the three
statistics are null when there are zero trades. -/
theorem C8_summary_contents (endDate : String) (all_trades : List Trade) :
    (write_summary endDate all_trades).trades = all_trades.length ∧
    (write_summary endDate all_trades).start_date = "2022-01-01" ∧
    (write_summary endDate all_trades).end_date = endDate ∧
    (write_summary endDate all_trades).threshold_bps = 50 ∧
    (write_summary endDate all_trades).holding_days = 5 ∧
    (all_trades = [] →
      (write_summary endDate all_trades).avg_return = none ∧
      (write_summary endDate all_trades).median_return = none ∧
      (write_summary endDate all_trades).win_rate = none) ∧
    (all_trades ≠ [] →
      (write_summary endDate all_trades).avg_return
        = some ((all_trades.map Trade.ret).sum / (all_trades.length : ℚ)) ∧
      (write_summary endDate all_trades).win_rate
        = some ((((all_trades.map Trade.ret).filter
            (fun r => decide (0 < r))).length : ℚ) / (all_trades.length : ℚ)) ∧
      ∃ l : List ℚ, l.Perm (all_trades.map Trade.ret) ∧ l.Sorted (· ≤ ·) ∧
        l.length = all_trades.length ∧
        (all_trades.length % 2 = 1 →
          (write_summary endDate all_trades).median_return
            = some (listGetD l (all_trades.length / 2) 0)) ∧
        (all_trades.length % 2 = 0 →
          (write_summary endDate all_trades).median_return
            = some ((listGetD l (all_trades.length / 2 - 1) 0
                + listGetD l (all_trades.length / 2) 0) / 2))) := by
  refine ⟨?_, rfl, rfl, rfl, rfl, ?_, ?_⟩
  · simp [write_summary]
  · intro h; subst h; simp [write_summary]
  · intro h
    have hn : 0 < all_trades.length := List.length_pos.mpr h
    have hn' : 0 < (all_trades.map Trade.ret).length := by
      simpa using hn
    refine ⟨?_, ?_, List.insertionSort (· ≤ ·) (all_trades.map Trade.ret),
      List.perm_insertionSort _ _, List.sorted_insertionSort _ _, ?_, ?_, ?_⟩
    · simp [write_summary, hn', h]
    · simp [write_summary, hn', h]
    · rw [(List.perm_insertionSort (· ≤ ·) (all_trades.map Trade.ret)).length_eq]
      simp
    · intro hodd
      have hodd' : (all_trades.map Trade.ret).length % 2 = 1 := by
        simpa using hodd
      simp only [write_summary, List.length_map, if_pos hn, if_pos hodd]
    · intro heven
      have hodd' : ¬ all_trades.length % 2 = 1 := by omega
      simp only [write_summary, List.length_map, if_pos hn, if_neg hodd']

/-- Witness for C8: the empty batch yields a null average, and a
three-trade batch with returns 3, 1, 2 averages to 2. -/
theorem C8_summary_contents_witness :
    ((write_summary "2031-01-01" []).avg_return = none) ∧
    (([⟨"A", 1, 2, 3, .num (-60), 5, 1, 1, 3⟩, ⟨"A", 1, 2, 3, .num (-60), 5, 1, 1, 1⟩,
        ⟨"A", 1, 2, 3, .num (-60), 5, 1, 1, 2⟩] : List Trade) ≠ []) ∧
    ((write_summary "2031-01-01"
        [⟨"A", 1, 2, 3, .num (-60), 5, 1, 1, 3⟩, ⟨"A", 1, 2, 3, .num (-60), 5, 1, 1, 1⟩,
          ⟨"A", 1, 2, 3, .num (-60), 5, 1, 1, 2⟩]).avg_return = some 2) := by
  refine ⟨((C8_summary_contents "2031-01-01" []).2.2.2.2.2.1 rfl).1,
    by decide, ?_⟩
  have h := ((C8_summary_contents "2031-01-01"
    [⟨"A", 1, 2, 3, .num (-60), 5, 1, 1, 3⟩, ⟨"A", 1, 2, 3, .num (-60), 5, 1, 1, 1⟩,
      ⟨"A", 1, 2, 3, .num (-60), 5, 1, 1, 2⟩]).2.2.2.2.2.2 (by decide)).1
  rw [h]
  norm_num [List.map]

end Datawiser
